import Mathlib

/-!
Shallow embedding of the `typify1` type-checking phase of the poke
compiler (src/src/pkl-typify.c).  Type nodes are modelled as an
inductive `PklType`; each typify1 handler is embedded as a pure
function from the types of the node's children to the outcome the
handler produces (an `Option`/result value, where `none` models a call
to `pkl_error` followed by `PKL_PASS_ERROR`).
-/

/-- Expression node standing in the `unit` slot of an offset type, or in
the `nelem` slot of an array type.  In the C code this is a full AST
expression node; the handlers in pkl-typify.c only ever build integer
literal nodes carrying an integral type (value, width, signedness), so
the embedding keeps literals structured and collapses every other
expression to an identifier. -/
inductive UnitExp where
  | lit (value : Nat) (width : Nat) (signed : Bool)
  | other (id : Nat)
deriving DecidableEq, Repr

mutual
/-- Type nodes of the Pkl AST (the PKL_TYPE_* variants used by
pkl-typify.c: integral, string, array, struct, offset, function, any,
void), with the essential attributes of each variant. -/
inductive PklType where
  | integral (size : Nat) (signed : Bool)
  | str
  | array (etype : PklType) (nelem : Option UnitExp)
  | strct (elems : StructElemTypes)
  | offset (base : PklType) (unit : UnitExp)
  | function (rtype : PklType) (args : FuncTypeArgs)
  | any
  | void
deriving DecidableEq, Repr

/-- Chain of STRUCT_ELEM_TYPE nodes of a struct type: an optional field
name together with the field's type. -/
inductive StructElemTypes where
  | nil
  | cons (name : Option String) (ty : PklType) (rest : StructElemTypes)
deriving DecidableEq, Repr

/-- Chain of FUNC_TYPE_ARG nodes of a function type: the argument type,
an optional argument name, and the OPTIONAL and VARARG flags set by
`pkl_typify1_pr_func`. -/
inductive FuncTypeArgs where
  | nil
  | cons (ty : PklType) (name : Option String) (opt : Bool) (vararg : Bool)
      (rest : FuncTypeArgs)
deriving DecidableEq, Repr
end

/-- The PKL_TYPE_* code of a type node (PKL_AST_TYPE_CODE). -/
inductive TypeCode where
  | integral
  | str
  | array
  | strct
  | offset
  | function
  | any
  | void
deriving DecidableEq, Repr

/-- PKL_AST_TYPE_CODE: the discriminating code of a type node. -/
def typeCode : PklType → TypeCode
  | .integral _ _ => .integral
  | .str => .str
  | .array _ _ => .array
  | .strct _ => .strct
  | .offset _ _ => .offset
  | .function _ _ => .function
  | .any => .any
  | .void => .void

/-- PKL_AST_TYPE_I_SIZE: the width field of an integral type node.  In
the C code this reads a union member that is only meaningful when the
node is integral; the embedding returns 0 in the other cases, and every
theorem below only relies on this accessor on integral nodes. -/
def PKL_AST_TYPE_I_SIZE : PklType → Nat
  | .integral s _ => s
  | _ => 0

/-- PKL_AST_TYPE_I_SIGNED: the signedness field of an integral type
node; junk value `false` outside integral nodes, as for
`PKL_AST_TYPE_I_SIZE`. -/
def PKL_AST_TYPE_I_SIGNED : PklType → Bool
  | .integral _ g => g
  | _ => false

/-- Modelled from the spec: `pkl_ast_type_equal` is defined in
pkl-ast.c, which is not part of the sources at hand (only an unrelated
older pcl-ast.c is); the spec describes it as "structural equality on
types", embedded here as decidable equality of `PklType` values. -/
def pkl_ast_type_equal (t1 t2 : PklType) : Bool :=
  t1 = t2

/-- pkl_typify1_ps_op_bconc (pkl-typify.c:540-584): the type of a
bit-concatenation `::`.  Both operands must be integral; the sum of the
widths must not exceed 64; the result is an integral of the summed
width with the signedness of the first operand.  `none` models
pkl_error + PKL_PASS_ERROR. -/
def pkl_typify1_ps_op_bconc (t1 t2 : PklType) : Option PklType :=
  if typeCode t1 ≠ TypeCode.integral ∨ typeCode t2 ≠ TypeCode.integral then
    none
  else if PKL_AST_TYPE_I_SIZE t1 + PKL_AST_TYPE_I_SIZE t2 > 64 then
    none
  else
    some (.integral (PKL_AST_TYPE_I_SIZE t1 + PKL_AST_TYPE_I_SIZE t2)
                    (PKL_AST_TYPE_I_SIGNED t1))

/-- pkl_typify1_ps_add (pkl-typify.c:284-321 and 441, the TYPIFY_BIN
macro instantiated for ADD): first the two operand type codes must be
equal; then the handler switches on the code.  At the point where
`TYPIFY_BIN (add)` is expanded, CASE_STR makes a string type,
CASE_INTEGRAL promotes (max width, signed iff both signed), and
CASE_OFFSET is still the definition introduced for SUB at lines
396-429: the promoted integral base together with a fresh unit node,
the integer literal 1 typed uint<64> ("Use bits for now"). -/
def pkl_typify1_ps_add (t1 t2 : PklType) : Option PklType :=
  if typeCode t1 ≠ typeCode t2 then none
  else
    match t1, t2 with
    | .str, _ => some .str
    | .offset b1 _, .offset b2 _ =>
        some (.offset
          (.integral (max (PKL_AST_TYPE_I_SIZE b1) (PKL_AST_TYPE_I_SIZE b2))
                     (PKL_AST_TYPE_I_SIGNED b1 && PKL_AST_TYPE_I_SIGNED b2))
          (UnitExp.lit 1 64 false))
    | .integral s1 g1, .integral s2 g2 =>
        some (.integral (max s1 s2) (g1 && g2))
    | _, _ => none

/-- Follows the spec's words, for comparison with the source-derived
`pkl_typify1_ps_add`: the "gcd-like common unit (common denominator)"
of two offset units is their greatest common divisor. -/
def spec_common_unit (u1 u2 : Nat) : Nat :=
  Nat.gcd u1 u2

/-- Outcome of the ISA handler: either the whole subtree is replaced by
an integer literal carrying a type (PKL_PASS_RESTART), or the node is
kept for the runtime with its type set. -/
inductive IsaResult where
  | rewriteLit (value : Nat) (ty : PklType)
  | keep (ty : PklType)
deriving DecidableEq, Repr

/-- pkl_typify1_ps_isa (pkl-typify.c:158-203), as a function of the
ISA node's annotation type and the static type of its expression.  If
the annotation type is `any` the node becomes the literal 1; otherwise,
if the expression's type is not `any`, the node becomes the literal
value of `pkl_ast_type_equal`; otherwise it is left for the runtime.
The literal (or the kept node) is typed int<32>, the boolean type. -/
def pkl_typify1_ps_isa (isa_type isa_exp_type : PklType) : IsaResult :=
  let bool_type : PklType := .integral 32 true
  if typeCode isa_type = TypeCode.any then
    .rewriteLit 1 bool_type
  else if typeCode isa_exp_type ≠ TypeCode.any then
    .rewriteLit (if pkl_ast_type_equal isa_type isa_exp_type then 1 else 0)
      bool_type
  else
    .keep bool_type

/-- pkl_typify1_ps_cast (pkl-typify.c:208-257), as a function of the
cast's target type and the static type of the casted expression.
Errors: target `any`, target a function type, source a function type,
or target `string` with a source other than uint<8>.  Otherwise the
cast is typed with the target type. -/
def pkl_typify1_ps_cast (ty exp_type : PklType) : Option PklType :=
  if typeCode ty = TypeCode.any then none
  else if typeCode ty = TypeCode.function then none
  else if typeCode exp_type = TypeCode.function then none
  else if typeCode ty = TypeCode.str ∧
          (typeCode exp_type ≠ TypeCode.integral ∨
           PKL_AST_TYPE_I_SIGNED exp_type ≠ false ∨
           PKL_AST_TYPE_I_SIZE exp_type ≠ 8) then none
  else some ty

/-- Modelled from the spec: the constant PKL_AST_OFFSET_UNIT_BITS lives
in pkl-ast.h, which is not among the sources at hand; per the spec the
unit value of an offset counts bits per unit, and the unit "bits" is 1
(`bytes` = 8, etc.), so the constant is 1. -/
def PKL_AST_OFFSET_UNIT_BITS : Nat := 1

/-- pkl_typify1_ps_op_sizeof (pkl-typify.c:589-606): the type of a
SIZEOF is an offset type with base uint<64> and unit the integer
literal PKL_AST_OFFSET_UNIT_BITS, itself typed uint<64>. -/
def pkl_typify1_ps_op_sizeof : PklType :=
  .offset (.integral 64 false) (UnitExp.lit PKL_AST_OFFSET_UNIT_BITS 64 false)

/-- The attribute codes PKL_AST_ATTR_* handled by
pkl_typify1_ps_attr. -/
inductive Attr where
  | size
  | signed
  | magnitude
  | unit
  | length
  | alignment
  | offset
  | mapped
deriving DecidableEq, Repr

/-- pkl_typify1_ps_attr (pkl-typify.c:1562-1716), as a function of the
operand's type and the attribute code.  `none` models the
invalid_attribute diagnostic.  The `default:` arm of the C switch (an
internal compiler error) is unreachable here because `Attr` has exactly
the handled codes. -/
def pkl_typify1_ps_attr (operand_type : PklType) (attr : Attr) :
    Option PklType :=
  match attr with
  | .size =>
      match typeCode operand_type with
      | .integral | .str | .array | .strct | .offset =>
          some (.offset (.integral 64 false) (UnitExp.lit 1 64 false))
      | _ => none
  | .signed =>
      if typeCode operand_type = TypeCode.integral then
        some (.integral 32 true)
      else none
  | .magnitude =>
      if typeCode operand_type = TypeCode.offset then
        some (.integral 64 false)
      else none
  | .unit =>
      if typeCode operand_type = TypeCode.offset then
        some (.integral 64 false)
      else none
  | .length =>
      match typeCode operand_type with
      | .array | .strct | .str => some (.integral 64 false)
      | _ => none
  | .alignment =>
      if typeCode operand_type = TypeCode.strct then
        some (.integral 64 false)
      else none
  | .offset =>
      match typeCode operand_type with
      | .array | .strct =>
          some (.offset (.integral 64 false) (UnitExp.lit 1 64 false))
      | _ => none
  | .mapped => some (.integral 32 true)

/-- The PKL_AST_* node codes that appear as the parent of a FUNCALL in
the void-return check of pkl_typify1_ps_funcall (pkl-typify.c:
1092-1115), together with statement-position codes.  The codes
themselves are declared in pkl-ast.h, which is not among the sources at
hand; the set of constructors follows the spec's list of AST
constructs. -/
inductive AstCode where
  | program
  | exp
  | cond_exp
  | array_initializer
  | indexer
  | trimmer
  | struct_elem
  | offset
  | cast
  | isa
  | map
  | scons
  | funcall
  | funcall_arg
  | decl
  | comp_stmt
  | ass_stmt
  | if_stmt
  | loop_stmt
  | return_stmt
  | exp_stmt
  | try_catch_stmt
  | print_stmt
  | raise_stmt
deriving DecidableEq, Repr

/-- The parent-code test of pkl_typify1_ps_funcall (pkl-typify.c:
1095-1108): parent codes that expect a value from the funcall. -/
def funcall_value_expecting_parent (parent_code : AstCode) : Bool :=
  match parent_code with
  | .exp | .cond_exp | .array_initializer | .indexer | .struct_elem
  | .offset | .cast | .map | .funcall | .funcall_arg | .decl => true
  | _ => false

/-- The void-return check at the end of pkl_typify1_ps_funcall
(pkl-typify.c:1092-1115): the funcall (already typed with the called
function's return type) is an error iff that type is VOID and the
parent node's code is one of the value-expecting codes. -/
def pkl_typify1_ps_funcall_void_check (funcall_type : PklType)
    (parent_code : AstCode) : Bool :=
  typeCode funcall_type = TypeCode.void &&
    funcall_value_expecting_parent parent_code

/-- The arity-check portion of pkl_typify1_ps_funcall
(pkl-typify.c:861-911) can end in one of two diagnostics or
continue. -/
inductive ArityCheck where
  | tooFew
  | tooMany
  | ok
deriving DecidableEq, Repr

/-- Loop at pkl-typify.c:864-872: the number of formal arguments before
the first formal flagged optional or vararg. -/
def mandatory_args : FuncTypeArgs → Nat
  | .nil => 0
  | .cons _ _ opt va rest =>
      if opt || va then 0 else mandatory_args rest + 1

/-- PKL_AST_TYPE_F_NARG: the length of a formal-argument chain. -/
def f_nargs : FuncTypeArgs → Nat
  | .nil => 0
  | .cons _ _ _ _ rest => f_nargs rest + 1

/-- Loop at pkl-typify.c:883-899: walking the actual arguments (here
just their count, `narg`) in parallel with the formal chain, `vararg`
is set iff some formal aligned with an actual has the VARARG flag. -/
def funcall_vararg_found : FuncTypeArgs → Nat → Bool
  | .nil, _ => false
  | .cons _ _ _ _ _, 0 => false
  | .cons _ _ _ va rest, narg + 1 => va || funcall_vararg_found rest narg

/-- The arity checks of pkl_typify1_ps_funcall (pkl-typify.c:861-911):
"too few arguments" when the actual count is below `mandatory_args`,
then "too many arguments" when no vararg formal was reached and the
actual count exceeds the formal count. -/
def pkl_typify1_ps_funcall_arity (fas : FuncTypeArgs) (narg : Nat) :
    ArityCheck :=
  if narg < mandatory_args fas then .tooFew
  else if !funcall_vararg_found fas narg && f_nargs fas < narg then .tooMany
  else .ok

/-- No formal argument in the chain carries the VARARG flag. -/
def no_vararg : FuncTypeArgs → Bool
  | .nil => true
  | .cons _ _ _ va rest => !va && no_vararg rest

/-- pkl_typify1_ps_first_operand (pkl-typify.c:146-153), the handler
installed for NEG, POS and BNOT: the expression's type is the type of
its first operand; the handler has no error path, which the embedding
records by always returning `some`. -/
def pkl_typify1_ps_first_operand (t : PklType) : Option PklType :=
  some t

/-- pkl_typify1_ps_trimmer (pkl-typify.c:670-701), as a function of the
types of the FROM index, the TO index, and the trimmed entity: each
index must be integral; the entity's type is not inspected and becomes
the trimmer's type. -/
def pkl_typify1_ps_trimmer (from_idx_type to_idx_type entity_type : PklType) :
    Option PklType :=
  if typeCode from_idx_type ≠ TypeCode.integral then none
  else if typeCode to_idx_type ≠ TypeCode.integral then none
  else some entity_type

/-- pkl_typify1_ps_type_integral (pkl-typify.c:1252-1268): `true` means
the handler reports "the width of an integral type should be in the
[1,64] range". -/
def pkl_typify1_ps_type_integral (size : Nat) : Bool :=
  size < 1 || size > 64

mutual
/-- Modelled from the spec: the traversal driver (pkl-pass) is not
among the sources at hand; per the spec it visits every node and
dispatches the PKL_TYPE_INTEGRAL handler on each integral type node.
This function counts, over a type tree, the errors the
`pkl_typify1_ps_type_integral` handler reports (mirroring the payload
error counter); acceptance of the tree is a zero count. -/
def typify1_integral_errors : PklType → Nat
  | .integral s _ => if pkl_typify1_ps_type_integral s then 1 else 0
  | .str => 0
  | .array e _ => typify1_integral_errors e
  | .strct es => typify1_integral_errors_elems es
  | .offset b _ => typify1_integral_errors b
  | .function r as => typify1_integral_errors r + typify1_integral_errors_args as
  | .any => 0
  | .void => 0

/-- Error count of the integral-width handler over a struct element
chain. -/
def typify1_integral_errors_elems : StructElemTypes → Nat
  | .nil => 0
  | .cons _ ty rest =>
      typify1_integral_errors ty + typify1_integral_errors_elems rest

/-- Error count of the integral-width handler over a formal argument
chain. -/
def typify1_integral_errors_args : FuncTypeArgs → Nat
  | .nil => 0
  | .cons ty _ _ _ rest =>
      typify1_integral_errors ty + typify1_integral_errors_args rest
end

mutual
/-- Every integral type node occurring in the tree has its width in the
range [1,64] (the invariant the claim states for accepted programs). -/
def all_integral_widths_ok : PklType → Bool
  | .integral s _ => decide (1 ≤ s) && decide (s ≤ 64)
  | .str => true
  | .array e _ => all_integral_widths_ok e
  | .strct es => all_integral_widths_ok_elems es
  | .offset b _ => all_integral_widths_ok b
  | .function r as => all_integral_widths_ok r && all_integral_widths_ok_args as
  | .any => true
  | .void => true

/-- Width invariant over a struct element chain. -/
def all_integral_widths_ok_elems : StructElemTypes → Bool
  | .nil => true
  | .cons _ ty rest =>
      all_integral_widths_ok ty && all_integral_widths_ok_elems rest

/-- Width invariant over a formal argument chain. -/
def all_integral_widths_ok_args : FuncTypeArgs → Bool
  | .nil => true
  | .cons ty _ _ _ rest =>
      all_integral_widths_ok ty && all_integral_widths_ok_args rest
end

/-- A type node has code ANY exactly when it is the `any` type. -/
theorem typeCode_eq_any (t : PklType) :
    typeCode t = TypeCode.any ↔ t = PklType.any := by
  cases t <;> simp [typeCode]

/-- A type node has code VOID exactly when it is the `void` type. -/
theorem typeCode_eq_void (t : PklType) :
    typeCode t = TypeCode.void ↔ t = PklType.void := by
  cases t <;> simp [typeCode]

/-- A type node has code STRING exactly when it is the string type. -/
theorem typeCode_eq_str (t : PklType) :
    typeCode t = TypeCode.str ↔ t = PklType.str := by
  cases t <;> simp [typeCode]

/-- The count of mandatory formals never exceeds the formal count. -/
theorem mandatory_args_le_f_nargs : (fas : FuncTypeArgs) →
    mandatory_args fas ≤ f_nargs fas
  | .nil => by simp [mandatory_args, f_nargs]
  | .cons ty name opt va rest => by
      have ih := mandatory_args_le_f_nargs rest
      simp only [mandatory_args, f_nargs]
      split <;> omega

/-- With no vararg formal in the chain, the parallel walk never sets
the vararg flag. -/
theorem funcall_vararg_found_of_no_vararg : (fas : FuncTypeArgs) →
    (narg : Nat) → no_vararg fas = true →
    funcall_vararg_found fas narg = false
  | .nil, _, _ => by simp [funcall_vararg_found]
  | .cons ty name opt va rest, 0, _ => by simp [funcall_vararg_found]
  | .cons ty name opt va rest, n + 1, h => by
      simp only [no_vararg, Bool.and_eq_true, Bool.not_eq_true'] at h
      simp [funcall_vararg_found, h.1,
        funcall_vararg_found_of_no_vararg rest n h.2]

mutual
/-- The integral-width pass accepts a type tree exactly when every
integral node in it has its width in [1,64]. -/
theorem integral_errors_zero_iff : (t : PklType) →
    (typify1_integral_errors t = 0 ↔ all_integral_widths_ok t = true)
  | .integral s g => by
      simp only [typify1_integral_errors, all_integral_widths_ok,
        pkl_typify1_ps_type_integral]
      split <;> rename_i h <;>
        simp_all [Bool.or_eq_true, decide_eq_true_eq] <;> omega
  | .str => by simp [typify1_integral_errors, all_integral_widths_ok]
  | .array e n => by
      simpa [typify1_integral_errors, all_integral_widths_ok] using
        integral_errors_zero_iff e
  | .strct es => by
      simpa [typify1_integral_errors, all_integral_widths_ok] using
        integral_errors_zero_iff_elems es
  | .offset b u => by
      simpa [typify1_integral_errors, all_integral_widths_ok] using
        integral_errors_zero_iff b
  | .function r as => by
      simp only [typify1_integral_errors, all_integral_widths_ok,
        Nat.add_eq_zero, Bool.and_eq_true]
      rw [integral_errors_zero_iff r, integral_errors_zero_iff_args as]
  | .any => by simp [typify1_integral_errors, all_integral_widths_ok]
  | .void => by simp [typify1_integral_errors, all_integral_widths_ok]

/-- Chain version of `integral_errors_zero_iff` for struct element
types. -/
theorem integral_errors_zero_iff_elems : (es : StructElemTypes) →
    (typify1_integral_errors_elems es = 0 ↔
      all_integral_widths_ok_elems es = true)
  | .nil => by
      simp [typify1_integral_errors_elems, all_integral_widths_ok_elems]
  | .cons name ty rest => by
      simp only [typify1_integral_errors_elems, all_integral_widths_ok_elems,
        Nat.add_eq_zero, Bool.and_eq_true]
      rw [integral_errors_zero_iff ty, integral_errors_zero_iff_elems rest]

/-- Chain version of `integral_errors_zero_iff` for formal argument
types. -/
theorem integral_errors_zero_iff_args : (as : FuncTypeArgs) →
    (typify1_integral_errors_args as = 0 ↔
      all_integral_widths_ok_args as = true)
  | .nil => by
      simp [typify1_integral_errors_args, all_integral_widths_ok_args]
  | .cons ty name opt va rest => by
      simp only [typify1_integral_errors_args, all_integral_widths_ok_args,
        Nat.add_eq_zero, Bool.and_eq_true]
      rw [integral_errors_zero_iff ty, integral_errors_zero_iff_args rest]
end

/-- C1, counterexample: on two offsets with base uint<32> and unit 8
(bytes), typify1's ADD handler produces the unit literal 1 (bits),
while the gcd-like common unit of 8 and 8 claimed by the spec is 8; so
the resulting unit is not the common unit of the operand units. -/
theorem claim_C1_counterexample :
    pkl_typify1_ps_add
        (.offset (.integral 32 false) (UnitExp.lit 8 64 false))
        (.offset (.integral 32 false) (UnitExp.lit 8 64 false))
      = some (.offset (.integral 32 false) (UnitExp.lit 1 64 false))
    ∧ spec_common_unit 8 8 = 8
    ∧ (UnitExp.lit 1 64 false : UnitExp)
        ≠ UnitExp.lit (spec_common_unit 8 8) 64 false := by
  refine ⟨rfl, rfl, by decide⟩

/-- C1 (amended): for every ADD whose operands both have offset types
(with integral bases, as the data model guarantees), typify1 assigns an
offset type whose base is the promoted integral — width the max of the
base widths, signed iff both bases are signed — and whose unit is the
integer literal 1 (bits, typed uint<64>), regardless of the operand
units. -/
theorem claim_C1_add_offsets (s1 s2 : Nat) (g1 g2 : Bool)
    (u1 u2 : UnitExp) :
    pkl_typify1_ps_add
        (.offset (.integral s1 g1) u1) (.offset (.integral s2 g2) u2)
      = some (.offset (.integral (max s1 s2) (g1 && g2))
          (UnitExp.lit 1 64 false)) := by
  simp [pkl_typify1_ps_add, typeCode, PKL_AST_TYPE_I_SIZE,
    PKL_AST_TYPE_I_SIGNED]

/-- C2: a bit-concatenation errors exactly when an operand is not
integral or the widths sum beyond 64; otherwise it is typed
Integral(sizeA+sizeB, signedA).  In particular 32-bit :: 32-bit is
accepted and 33-bit :: 32-bit is rejected. -/
theorem claim_C2_bconc (t1 t2 : PklType) :
    (pkl_typify1_ps_op_bconc t1 t2 = none ↔
      (typeCode t1 ≠ TypeCode.integral ∨ typeCode t2 ≠ TypeCode.integral ∨
        64 < PKL_AST_TYPE_I_SIZE t1 + PKL_AST_TYPE_I_SIZE t2))
    ∧ (∀ s1 g1 s2 g2, t1 = PklType.integral s1 g1 →
        t2 = PklType.integral s2 g2 → s1 + s2 ≤ 64 →
        pkl_typify1_ps_op_bconc t1 t2 = some (.integral (s1 + s2) g1))
    ∧ (∀ g1 g2,
        pkl_typify1_ps_op_bconc (.integral 32 g1) (.integral 32 g2)
          = some (.integral 64 g1))
    ∧ (∀ g1 g2,
        pkl_typify1_ps_op_bconc (.integral 33 g1) (.integral 32 g2) = none) := by
  refine ⟨?_, ?_, ?_, ?_⟩
  · unfold pkl_typify1_ps_op_bconc
    split
    · rename_i h
      simp only [true_iff]
      tauto
    · rename_i h
      push_neg at h
      split <;> rename_i h2 <;> simp [h.1, h.2] <;> omega
  · rintro s1 g1 s2 g2 rfl rfl hle
    simp [pkl_typify1_ps_op_bconc, typeCode, PKL_AST_TYPE_I_SIZE,
      PKL_AST_TYPE_I_SIGNED, Nat.not_lt.mpr hle]
  · intro g1 g2
    simp [pkl_typify1_ps_op_bconc, typeCode, PKL_AST_TYPE_I_SIZE,
      PKL_AST_TYPE_I_SIGNED]
  · intro g1 g2
    simp [pkl_typify1_ps_op_bconc, typeCode, PKL_AST_TYPE_I_SIZE]

/-- C2 witness: the characterization applied at uint<16> :: int<8>,
whose concatenation is accepted with type uint<24>. -/
theorem claim_C2_bconc_witness :
    pkl_typify1_ps_op_bconc (.integral 16 false) (.integral 8 true)
      = some (.integral 24 false) :=
  (claim_C2_bconc (.integral 16 false) (.integral 8 true)).2.1
    16 false 8 true rfl rfl (by decide)

/-- C3: `e isa any` is rewritten to the literal 1 typed int<32>; when
the static type of e is not `any` and the annotation type is not `any`,
`e isa T` is rewritten to the literal 1 or 0 according to structural
type equality; only when e's type is `any` and T is not is the node
kept for the runtime, typed int<32>. -/
theorem claim_C3_isa (T e_type : PklType) :
    pkl_typify1_ps_isa PklType.any e_type
      = IsaResult.rewriteLit 1 (.integral 32 true)
    ∧ (T ≠ PklType.any → e_type ≠ PklType.any →
        pkl_typify1_ps_isa T e_type
          = IsaResult.rewriteLit
              (if pkl_ast_type_equal T e_type then 1 else 0)
              (.integral 32 true))
    ∧ (T ≠ PklType.any →
        pkl_typify1_ps_isa T PklType.any
          = IsaResult.keep (.integral 32 true)) := by
  refine ⟨?_, ?_, ?_⟩
  · simp [pkl_typify1_ps_isa, typeCode]
  · intro hT hE
    rw [pkl_typify1_ps_isa, if_neg (by simpa [typeCode_eq_any] using hT),
      if_pos (by simpa [typeCode_eq_any] using hE)]
  · intro hT
    rw [pkl_typify1_ps_isa, if_neg (by simpa [typeCode_eq_any] using hT),
      if_neg (by simp [typeCode])]

/-- C3 witness: at T = uint<8>, e : string, the node is rewritten to
the literal 0; at e : any it is kept for the runtime. -/
theorem claim_C3_isa_witness :
    pkl_typify1_ps_isa (.integral 8 false) PklType.str
      = IsaResult.rewriteLit 0 (.integral 32 true)
    ∧ pkl_typify1_ps_isa (.integral 8 false) PklType.any
      = IsaResult.keep (.integral 32 true) := by
  constructor
  · have h := (claim_C3_isa (.integral 8 false) PklType.str).2.1
      (by decide) (by decide)
    simpa [pkl_ast_type_equal] using h
  · exact (claim_C3_isa (.integral 8 false) PklType.str).2.2 (by decide)

/-- C4: a cast errors exactly when the target is `any`, the target is
a function type, the source is a function type, or the target is
`string` with a source other than uint<8>; every accepted cast is
typed with the target type; with a string target, acceptance is
equivalent to the source being exactly uint<8>. -/
theorem eq_uint8_of_fields (t : PklType)
    (hi : typeCode t = TypeCode.integral)
    (hg : PKL_AST_TYPE_I_SIGNED t = false)
    (hs : PKL_AST_TYPE_I_SIZE t = 8) :
    t = PklType.integral 8 false := by
  cases t <;> simp_all [typeCode, PKL_AST_TYPE_I_SIGNED, PKL_AST_TYPE_I_SIZE]

theorem claim_C4_cast (ty exp_type : PklType) :
    (pkl_typify1_ps_cast ty exp_type = none ↔
      (ty = PklType.any ∨ typeCode ty = TypeCode.function ∨
        typeCode exp_type = TypeCode.function ∨
        (ty = PklType.str ∧ exp_type ≠ PklType.integral 8 false)))
    ∧ (∀ r, pkl_typify1_ps_cast ty exp_type = some r → r = ty)
    ∧ (pkl_typify1_ps_cast PklType.str exp_type ≠ none ↔
        exp_type = PklType.integral 8 false) := by
  refine ⟨?_, ?_, ?_⟩
  · unfold pkl_typify1_ps_cast
    split
    · rename_i h
      simp [(typeCode_eq_any ty).mp h]
    · rename_i hAny
      split
      · rename_i h
        simp [h]
      · rename_i hFun
        split
        · rename_i h
          simp [h]
        · rename_i hEFun
          split
          · rename_i h
            obtain ⟨hstr, hdis⟩ := h
            have hstr' := (typeCode_eq_str ty).mp hstr
            subst hstr'
            simp only [true_iff]
            refine Or.inr (Or.inr (Or.inr ⟨by simp, ?_⟩))
            intro hc
            subst hc
            simp [typeCode, PKL_AST_TYPE_I_SIZE, PKL_AST_TYPE_I_SIGNED]
              at hdis
          · rename_i hcond
            simp only [reduceCtorEq, false_iff]
            intro hRHS
            rcases hRHS with h | h | h | ⟨hstr, hne⟩
            · exact hAny ((typeCode_eq_any ty).mpr h)
            · exact hFun h
            · exact hEFun h
            · subst hstr
              apply hcond
              refine ⟨rfl, ?_⟩
              by_contra hd
              push_neg at hd
              exact hne (eq_uint8_of_fields exp_type hd.1 hd.2.1 hd.2.2)
  · intro r h
    unfold pkl_typify1_ps_cast at h
    repeat' split at h
    all_goals simp_all
  · constructor
    · intro h
      by_contra hne
      apply h
      unfold pkl_typify1_ps_cast
      rw [if_neg (by simp [typeCode]), if_neg (by simp [typeCode])]
      split
      · rfl
      · have hcnd : typeCode PklType.str = TypeCode.str ∧
            (typeCode exp_type ≠ TypeCode.integral ∨
             PKL_AST_TYPE_I_SIGNED exp_type ≠ false ∨
             PKL_AST_TYPE_I_SIZE exp_type ≠ 8) := by
          refine ⟨rfl, ?_⟩
          by_contra hd
          push_neg at hd
          exact hne (eq_uint8_of_fields exp_type hd.1 hd.2.1 hd.2.2)
        rw [if_pos hcnd]
    · intro h
      subst h
      simp [pkl_typify1_ps_cast, typeCode, PKL_AST_TYPE_I_SIZE,
        PKL_AST_TYPE_I_SIGNED]

/-- C4 witness: the accepted-cast shape applied at the cast of an
int<16> value to int<32>. -/
theorem claim_C4_cast_witness :
    PklType.integral 32 true = PklType.integral 32 true :=
  (claim_C4_cast (.integral 32 true) (.integral 16 true)).2.1
    (.integral 32 true) rfl

/-- C5: whenever the attribute handler accepts `x'size`, the type it
assigns is structurally equal to the type the SIZEOF handler assigns,
and both are the offset type with base uint<64> and unit the literal 1
(bits). -/
theorem claim_C5_sizeof_attr_size (t ty : PklType)
    (h : pkl_typify1_ps_attr t Attr.size = some ty) :
    pkl_ast_type_equal ty pkl_typify1_ps_op_sizeof = true
    ∧ ty = PklType.offset (.integral 64 false) (UnitExp.lit 1 64 false)
    ∧ pkl_typify1_ps_op_sizeof
        = PklType.offset (.integral 64 false) (UnitExp.lit 1 64 false) := by
  have hty : ty = PklType.offset (.integral 64 false) (UnitExp.lit 1 64 false) := by
    unfold pkl_typify1_ps_attr at h
    cases t <;> simp [typeCode] at h <;> exact h.symm
  subst hty
  exact ⟨by decide, rfl, rfl⟩

/-- C5 witness: the equality applied at a string-typed operand, on
which 'size is defined. -/
theorem claim_C5_sizeof_attr_size_witness :
    pkl_ast_type_equal
        (PklType.offset (.integral 64 false) (UnitExp.lit 1 64 false))
        pkl_typify1_ps_op_sizeof = true
    ∧ PklType.offset (.integral 64 false) (UnitExp.lit 1 64 false)
        = PklType.offset (.integral 64 false) (UnitExp.lit 1 64 false)
    ∧ pkl_typify1_ps_op_sizeof
        = PklType.offset (.integral 64 false) (UnitExp.lit 1 64 false) :=
  claim_C5_sizeof_attr_size PklType.str
    (PklType.offset (.integral 64 false) (UnitExp.lit 1 64 false)) rfl

/-- C6: a funcall typed with a void return type is diagnosed exactly
when its parent node is one of the value-expecting codes (expression
operand, conditional expression, array initializer, indexer, struct
element, offset, cast, map, funcall, funcall argument, declaration
initializer); in statement position it is accepted. -/
theorem claim_C6_void_funcall (rt : PklType) (p : AstCode) :
    (pkl_typify1_ps_funcall_void_check rt p = true ↔
      (rt = PklType.void ∧
        (p = AstCode.exp ∨ p = AstCode.cond_exp ∨
         p = AstCode.array_initializer ∨ p = AstCode.indexer ∨
         p = AstCode.struct_elem ∨ p = AstCode.offset ∨ p = AstCode.cast ∨
         p = AstCode.map ∨ p = AstCode.funcall ∨ p = AstCode.funcall_arg ∨
         p = AstCode.decl)))
    ∧ pkl_typify1_ps_funcall_void_check PklType.void AstCode.exp_stmt = false
    ∧ pkl_typify1_ps_funcall_void_check PklType.void AstCode.comp_stmt
        = false := by
  refine ⟨?_, rfl, rfl⟩
  cases p <;>
    simp [pkl_typify1_ps_funcall_void_check, funcall_value_expecting_parent,
      typeCode_eq_void]

/-- C7: the arity check reports "too few arguments" exactly when the
actual count is below the number of mandatory formals, and, when no
formal is a vararg, reports "too many arguments" exactly when the
actual count exceeds the formal count. -/
theorem claim_C7_funcall_arity (fas : FuncTypeArgs) (narg : Nat) :
    (pkl_typify1_ps_funcall_arity fas narg = ArityCheck.tooFew ↔
      narg < mandatory_args fas)
    ∧ (no_vararg fas = true →
        (pkl_typify1_ps_funcall_arity fas narg = ArityCheck.tooMany ↔
          f_nargs fas < narg)) := by
  constructor
  · unfold pkl_typify1_ps_funcall_arity
    split
    · rename_i h
      simp [h]
    · rename_i h
      split <;> simp [h]
  · intro hnv
    unfold pkl_typify1_ps_funcall_arity
    rw [funcall_vararg_found_of_no_vararg fas narg hnv]
    have hle := mandatory_args_le_f_nargs fas
    split
    · rename_i h
      constructor
      · intro hc
        exact absurd hc (by simp)
      · intro hlt
        omega
    · rename_i h
      split
      · rename_i h2
        simp only [true_iff]
        simpa using h2
      · rename_i h2
        simp only [reduceCtorEq, false_iff]
        simpa using h2

/-- C7 witness: a one-argument function with no optional or vararg
formal, called with two actuals, is diagnosed with "too many
arguments". -/
theorem claim_C7_funcall_arity_witness :
    pkl_typify1_ps_funcall_arity
        (FuncTypeArgs.cons (.integral 32 true) none false false .nil) 2
      = ArityCheck.tooMany :=
  ((claim_C7_funcall_arity
      (FuncTypeArgs.cons (.integral 32 true) none false false .nil) 2).2
    (by decide)).mpr (by decide)

/-- C8: the integral-type handler errors exactly when the width is
outside [1,64] — in particular widths 0 and 65 are rejected — and a
type tree passes the integral-width pass with zero errors exactly when
every integral type node in it has width in [1,64]. -/
theorem claim_C8_integral_width (s : Nat) (t : PklType) :
    (pkl_typify1_ps_type_integral s = true ↔ (s < 1 ∨ 64 < s))
    ∧ pkl_typify1_ps_type_integral 0 = true
    ∧ pkl_typify1_ps_type_integral 65 = true
    ∧ (typify1_integral_errors t = 0 ↔ all_integral_widths_ok t = true) := by
  refine ⟨?_, rfl, rfl, integral_errors_zero_iff t⟩
  simp [pkl_typify1_ps_type_integral, Nat.lt_iff_add_one_le]

/-- C9: the NEG/POS/BNOT handler assigns the expression exactly the
type of its single operand and has no error path, whatever the kind of
the operand's type — string, array, struct, function, any and void
included. -/
theorem claim_C9_first_operand (t : PklType) :
    pkl_typify1_ps_first_operand t = some t
    ∧ pkl_typify1_ps_first_operand PklType.str = some PklType.str
    ∧ pkl_typify1_ps_first_operand PklType.any = some PklType.any
    ∧ pkl_typify1_ps_first_operand PklType.void = some PklType.void
    ∧ (∀ es, pkl_typify1_ps_first_operand (PklType.strct es)
        = some (PklType.strct es))
    ∧ (∀ r as, pkl_typify1_ps_first_operand (PklType.function r as)
        = some (PklType.function r as)) :=
  ⟨rfl, rfl, rfl, rfl, fun _ => rfl, fun _ _ => rfl⟩

/-- C10: a trimmer errors exactly when one of the two index types is
not integral; the trimmed entity's type is never inspected and becomes
the trimmer's type — even a non-container entity such as an integral
is accepted. -/
theorem claim_C10_trimmer (ft tt et : PklType) :
    (pkl_typify1_ps_trimmer ft tt et = none ↔
      (typeCode ft ≠ TypeCode.integral ∨ typeCode tt ≠ TypeCode.integral))
    ∧ (typeCode ft = TypeCode.integral → typeCode tt = TypeCode.integral →
        pkl_typify1_ps_trimmer ft tt et = some et)
    ∧ pkl_typify1_ps_trimmer (.integral 64 false) (.integral 64 false)
        (.integral 8 false) = some (.integral 8 false) := by
  refine ⟨?_, ?_, rfl⟩
  · unfold pkl_typify1_ps_trimmer
    split
    · rename_i h
      simp [h]
    · rename_i h
      split <;> rename_i h2 <;> simp [h, h2]
  · intro h1 h2
    simp [pkl_typify1_ps_trimmer, h1, h2]

/-- C10 witness: both indices of type uint<64> and an integral entity:
accepted, with the entity's type. -/
theorem claim_C10_trimmer_witness :
    pkl_typify1_ps_trimmer (.integral 64 false) (.integral 64 false)
        PklType.str = some PklType.str :=
  (claim_C10_trimmer (.integral 64 false) (.integral 64 false)
      PklType.str).2.1 rfl rfl
